import Mathlib

/-!
Verification development for the `core-lib` collection kernel
(`src/core-lib/src/collection.ts`).

The TypeScript module implements a `Collection` class over `Work` entities:
`addWork`, `removeWork`, `getWork`, `listWorks`, `getChangeLog`, with zod
validation of inputs, injected clock/id providers, and an append-only
changelog.  This file gives a shallow embedding of that module:

* `Work`, `WorkInput`, `ChangeLogEntry` mirror the exported record types
  (JS `number` timestamps are embedded as `Int`; the claims only involve
  integral epoch-millisecond values).
* The injected providers `now : () => number` and `idFactory : () => string`
  are embedded as streams indexed by call count (`Nat → Int`,
  `Nat → String`); the collection state carries how many times each has
  been called, so that stateful injected generators (as used in the tests)
  are modelled faithfully.
* The JS `Map` keyed by id is embedded as an insertion-ordered association
  list with (by construction) unique keys: `Map.set` of a fresh key appends,
  `Map.get` finds the entry, `Map.delete` removes it,
  `Array.from(map.values())` is the list of values in insertion order.
* Thrown `Error`s are embedded as an `Except` error channel; the
  `CollectionError` constructors record the error categories of the module
  (validation failure with the offending field path, duplicate id, missing
  id), and `errorMessage` reproduces the exact thrown message strings.
* zod's `workInputSchema.safeParse` together with the surrounding
  `parseWorkInput` is embedded as `parseWorkInput` below: `.trim()`
  transforms each present string field, `.min(1)` then requires
  nonemptiness, issues are produced in schema key order and the first one
  is reported (`result.error.issues[0]`).

A second model (namespace `Alias`) refines the cloning calls
(`cloneWork`, `clonePayload`, `cloneChangeLogEntry`) into explicit heap
allocation, in order to state the aliasing/defensive-copy contract; see
its header comment.
-/

/-- `Work` record: `{id, displayTitle, mediaTypeKey, createdAt, updatedAt}`. -/
structure Work where
  id : String
  displayTitle : String
  mediaTypeKey : String
  createdAt : Int
  updatedAt : Int
deriving DecidableEq, Repr

/-- `WorkInput` record: optional `id`/`createdAt`/`updatedAt` are embedded as
`Option` (absent ↦ `none`). -/
structure WorkInput where
  id : Option String := none
  displayTitle : String
  mediaTypeKey : String
  createdAt : Option Int := none
  updatedAt : Option Int := none
deriving DecidableEq, Repr

/-- The changelog payloads actually produced by the module:
`{ work }` for `work.create` and `{ workId, work }` for `work.remove`
(`payloadJson` has type `unknown` in the source; these are the only values
ever stored in it). -/
inductive Payload where
  | workCreate (work : Work)
  | workRemove (workId : String) (work : Work)
deriving DecidableEq, Repr

/-- `ChangeLogEntry` record: `{id, timestamp, opType, payloadJson}`. -/
structure ChangeLogEntry where
  id : String
  timestamp : Int
  opType : String
  payloadJson : Payload
deriving DecidableEq, Repr

/-- The error categories thrown by the module (the source throws plain
`Error`s; the constructor identifies which `throw` site fired and carries
the data interpolated into the message). -/
inductive CollectionError where
  | validationError (path : String) (message : String)
  | duplicateIdError (id : String)
  | notFoundError (id : String)
deriving DecidableEq, Repr

/-- The exact message strings of the thrown `Error`s. -/
def errorMessage : CollectionError → String
  | .validationError path message => "Work input invalid for " ++ path ++ ": " ++ message
  | .duplicateIdError id => "Work with id " ++ id ++ " already exists."
  | .notFoundError id => "Work with id " ++ id ++ " does not exist."

/-- zod's default message for `.min(1)` on a string. -/
def minLengthMessage : String := "String must contain at least 1 character(s)"

/-- JS `String.prototype.trim` (as used by zod's `.trim()`): drop whitespace
from both ends of the string.  (JS also strips a few exotic Unicode space
code points; on the ASCII whitespace relevant here the two notions agree.) -/
def jsTrim (s : String) : String :=
  ⟨((s.data.dropWhile Char.isWhitespace).reverse.dropWhile
      Char.isWhitespace).reverse⟩

/-- Embedding of `workInputSchema.safeParse` + `parseWorkInput`:
each present string field is trimmed (zod `.trim()`), then required
nonempty (zod `.min(1)`); `id` is optional.  zod walks the object fields
in schema key order (`id`, `displayTitle`, `mediaTypeKey`, `createdAt`,
`updatedAt`) and `parseWorkInput` throws on `issues[0]`, so the first
failing field in that order is the reported one.  `createdAt`/`updatedAt`
are already numbers by typing.  On success the returned data carries the
trimmed strings. -/
def parseWorkInput (input : WorkInput) : Except CollectionError WorkInput :=
  let id := input.id.map jsTrim
  if id.any (fun s => s.length == 0) then
    .error (.validationError "id" minLengthMessage)
  else if (jsTrim input.displayTitle).length == 0 then
    .error (.validationError "displayTitle" minLengthMessage)
  else if (jsTrim input.mediaTypeKey).length == 0 then
    .error (.validationError "mediaTypeKey" minLengthMessage)
  else
    .ok { id := id
          displayTitle := jsTrim input.displayTitle
          mediaTypeKey := jsTrim input.mediaTypeKey
          createdAt := input.createdAt
          updatedAt := input.updatedAt }

/-- `cloneWork`: `{ ...work }` — a field-by-field copy.  At the level of
values this is the identity; the spread is written out so the embedding
mirrors the source (the `Alias` model below captures the fact that it
yields a distinct object). -/
def cloneWork (work : Work) : Work :=
  { id := work.id
    displayTitle := work.displayTitle
    mediaTypeKey := work.mediaTypeKey
    createdAt := work.createdAt
    updatedAt := work.updatedAt }

/-- `clonePayload`: a deep copy (`structuredClone`, or JSON round-trip as the
fallback); both preserve the value of the plain-data payloads used here. -/
def clonePayload (payload : Payload) : Payload :=
  match payload with
  | .workCreate work => .workCreate (cloneWork work)
  | .workRemove workId work => .workRemove workId (cloneWork work)

/-- `cloneChangeLogEntry`: `{ ...entry, payloadJson: clonePayload(...) }`. -/
def cloneChangeLogEntry (entry : ChangeLogEntry) : ChangeLogEntry :=
  { id := entry.id
    timestamp := entry.timestamp
    opType := entry.opType
    payloadJson := clonePayload entry.payloadJson }

/-- The injected `CollectionOptions`: the clock and the id factory are
embedded as streams indexed by the number of prior calls. -/
structure CollectionOptions where
  now : Nat → Int
  idFactory : Nat → String

/-- The private state of a `Collection` instance: the `works` map (as an
insertion-ordered association list), the `changeLog` array, and the call
counters of the two injected providers. -/
structure CollectionState where
  works : List (String × Work)
  changeLog : List ChangeLogEntry
  nowCalls : Nat
  idCalls : Nat
deriving DecidableEq, Repr

/-- A freshly constructed `Collection`: empty map, empty changelog. -/
def initialState : CollectionState :=
  { works := [], changeLog := [], nowCalls := 0, idCalls := 0 }

/-- One call of `this.now()`: yields the clock's next value, bumps the
call counter. -/
def callNow (opts : CollectionOptions) (st : CollectionState) :
    Int × CollectionState :=
  (opts.now st.nowCalls, { st with nowCalls := st.nowCalls + 1 })

/-- One call of `this.idFactory()`. -/
def callIdFactory (opts : CollectionOptions) (st : CollectionState) :
    String × CollectionState :=
  (opts.idFactory st.idCalls, { st with idCalls := st.idCalls + 1 })

/-- `Map.get(id)` on an insertion-ordered association list (keyed by
`String`; the value type is `Work` in the value-level model and a heap
address in the aliasing model below). -/
def mapGet {α : Type} (works : List (String × α)) (id : String) : Option α :=
  match works with
  | [] => none
  | (k, w) :: rest => if k = id then some w else mapGet rest id

/-- `Map.delete(id)`: the map holds at most one entry per key, so deletion
is removal of every entry with that key. -/
def mapDelete {α : Type} (works : List (String × α)) (id : String) :
    List (String × α) :=
  works.filter (fun p => p.1 ≠ id)

/-- `private recordChange(opType, payloadJson)`: builds the entry
(`id: this.idFactory()` first, then `timestamp: this.now()`, in object
literal evaluation order) and pushes it onto the changelog. -/
def recordChange (opts : CollectionOptions) (st : CollectionState)
    (opType : String) (payloadJson : Payload) : CollectionState :=
  let (entryId, st1) := callIdFactory opts st
  let (timestamp, st2) := callNow opts st1
  let entry : ChangeLogEntry :=
    { id := entryId, timestamp := timestamp, opType := opType
      payloadJson := payloadJson }
  { st2 with changeLog := st2.changeLog ++ [entry] }

/-- `parsed.id ?? this.idFactory()`: the caller-supplied id when present,
otherwise one drawn from the factory. -/
def resolveId (opts : CollectionOptions) (st : CollectionState)
    (parsedId : Option String) : String × CollectionState :=
  match parsedId with
  | some suppliedId => (suppliedId, st)
  | none => callIdFactory opts st

/-- `addWork(input)`.  Returns the thrown error or the returned work,
together with the post-call state (a throwing call can still have advanced
the id factory, when the duplicate id was a generated one). -/
def addWork (opts : CollectionOptions) (st : CollectionState)
    (input : WorkInput) : Except CollectionError Work × CollectionState :=
  match parseWorkInput input with
  | .error e => (.error e, st)
  | .ok parsed =>
    let (id, st1) := resolveId opts st parsed.id
    if (mapGet st1.works id).isSome then
      (.error (.duplicateIdError id), st1)
    else
      let (timestamp, st2) := callNow opts st1
      let work : Work :=
        { id := id
          displayTitle := parsed.displayTitle
          mediaTypeKey := parsed.mediaTypeKey
          createdAt := parsed.createdAt.getD timestamp
          updatedAt := parsed.updatedAt.getD (parsed.createdAt.getD timestamp) }
      let st3 := { st2 with works := st2.works ++ [(work.id, work)] }
      let st4 := recordChange opts st3 "work.create" (.workCreate (cloneWork work))
      (.ok (cloneWork work), st4)

/-- `removeWork(id)`. -/
def removeWork (opts : CollectionOptions) (st : CollectionState)
    (id : String) : Except CollectionError Work × CollectionState :=
  match mapGet st.works id with
  | none => (.error (.notFoundError id), st)
  | some existing =>
    let st1 := { st with works := mapDelete st.works id }
    let st2 := recordChange opts st1 "work.remove"
      (.workRemove id (cloneWork existing))
    (.ok (cloneWork existing), st2)

/-- `getWork(id)`: a read; returns a copy, touches no state. -/
def getWork (st : CollectionState) (id : String) : Option Work :=
  (mapGet st.works id).map cloneWork

/-- `listWorks()`: copies of the map's values in insertion order. -/
def listWorks (st : CollectionState) : List Work :=
  st.works.map (fun p => cloneWork p.2)

/-- `getChangeLog()`: copies of the changelog entries, in insertion order. -/
def getChangeLog (st : CollectionState) : List ChangeLogEntry :=
  st.changeLog.map cloneChangeLogEntry

/-! ### Derived operation-sequence definitions (for the claims) -/

/-- The work built by a successful `addWork`. -/
def builtWork (parsed : WorkInput) (id : String) (timestamp : Int) : Work :=
  { id := id
    displayTitle := parsed.displayTitle
    mediaTypeKey := parsed.mediaTypeKey
    createdAt := parsed.createdAt.getD timestamp
    updatedAt := parsed.updatedAt.getD (parsed.createdAt.getD timestamp) }

/-- Whether a call's result is a normal return (the call did not throw). -/
def accepted (r : Except CollectionError Work) : Bool :=
  match r with
  | .ok _ => true
  | .error _ => false

/-- A mutating call on the collection. -/
inductive Op where
  | addOp (input : WorkInput)
  | removeOp (id : String)
deriving DecidableEq, Repr

/-- Performing one mutating call. -/
def applyOp (opts : CollectionOptions) (st : CollectionState) :
    Op → Except CollectionError Work × CollectionState
  | .addOp input => addWork opts st input
  | .removeOp id => removeWork opts st id

/-- The changelog `opType` corresponding to each kind of mutating call. -/
def opTypeOf : Op → String
  | .addOp _ => "work.create"
  | .removeOp _ => "work.remove"

/-- Performing a sequence of mutating calls (a throwing call leaves its
error with the caller; the run continues with the post-call state). -/
def runOps (opts : CollectionOptions) (st : CollectionState) :
    List Op → CollectionState
  | [] => st
  | op :: rest => runOps opts (applyOp opts st op).2 rest

/-- One `opType` per accepted call, in call order. -/
def acceptedOpTypes (opts : CollectionOptions) (st : CollectionState) :
    List Op → List String
  | [] => []
  | op :: rest =>
    (if accepted (applyOp opts st op).1 then [opTypeOf op] else [])
      ++ acceptedOpTypes opts (applyOp opts st op).2 rest

/-- The store invariant that every map entry is keyed by its own work's
id, as maintained by `this.works.set(work.id, work)`. -/
def KeyedByOwnId (st : CollectionState) : Prop :=
  ∀ p ∈ st.works, p.2.id = p.1

/-! ### The aliasing model

The value-level model above cannot express the point of the `clone*`
functions: that the object handed to the caller is a *different JS object*
from the one in the store or in a changelog payload, so that the caller
mutating its object in place cannot corrupt internal state.  The `Alias`
namespace refines the same source code, making object identity explicit: a
`Work` object is a cell of a heap addressed by `Nat`, allocation appends a
cell, `cloneWork`/`clonePayload` allocate fresh cells holding the same field
values, the store maps ids to addresses, a changelog payload holds the
address of its snapshot cell, and the caller mutating a returned object is
an arbitrary overwrite of the returned address's cell.  All other logic
(validation, id resolution, duplicate check, timestamps) is shared with the
value-level model. -/

namespace Alias

/-- The heap: cell `a` is `cells[a]`; allocation appends. -/
structure Heap where
  cells : List Work
deriving DecidableEq, Repr

/-- Placeholder returned when reading a dangling address; never reached
from a well-formed state. -/
def danglingWork : Work :=
  { id := "", displayTitle := "", mediaTypeKey := "", createdAt := 0
    updatedAt := 0 }

/-- Read the object at address `a`. -/
def readCell (h : Heap) (a : Nat) : Work :=
  h.cells.getD a danglingWork

/-- In-place mutation of the object at address `a` (what a caller does to
an object it was handed). -/
def writeCell (h : Heap) (a : Nat) (w : Work) : Heap :=
  ⟨h.cells.set a w⟩

/-- Allocate a new object; returns its address. -/
def alloc (h : Heap) (w : Work) : Nat × Heap :=
  (h.cells.length, ⟨h.cells ++ [w]⟩)

/-- `cloneWork` (`{ ...work }`): allocate a fresh object with the same
field values. -/
def cloneWorkA (h : Heap) (a : Nat) : Nat × Heap :=
  alloc h (readCell h a)

/-- A changelog payload holding the address of its snapshot object
(`clonePayload` on read will deep-copy the snapshot). -/
inductive PayloadRef where
  | workCreate (workAddr : Nat)
  | workRemove (workId : String) (workAddr : Nat)
deriving DecidableEq, Repr

/-- The snapshot address inside a payload. -/
def refAddr : PayloadRef → Nat
  | .workCreate a => a
  | .workRemove _ a => a

/-- A stored changelog entry (its payload points into the heap). -/
structure EntryRef where
  id : String
  timestamp : Int
  opType : String
  payloadJson : PayloadRef
deriving DecidableEq, Repr

/-- Collection state with explicit object identity: the store maps ids to
addresses of the canonical objects. -/
structure StateA where
  heap : Heap
  works : List (String × Nat)
  changeLog : List EntryRef
  nowCalls : Nat
  idCalls : Nat
deriving DecidableEq, Repr

/-- A freshly constructed `Collection` over an empty heap. -/
def initialStateA : StateA :=
  { heap := ⟨[]⟩, works := [], changeLog := [], nowCalls := 0, idCalls := 0 }

/-- `recordChange` in the aliasing model (the payload address was
allocated by the caller, mirroring argument evaluation order). -/
def recordChangeA (opts : CollectionOptions) (st : StateA) (opType : String)
    (payloadJson : PayloadRef) : StateA :=
  { st with
    changeLog := st.changeLog ++
      [{ id := opts.idFactory st.idCalls
         timestamp := opts.now st.nowCalls
         opType := opType, payloadJson := payloadJson }]
    nowCalls := st.nowCalls + 1
    idCalls := st.idCalls + 1 }

/-- `parsed.id ?? this.idFactory()` in the aliasing model. -/
def resolveIdA (opts : CollectionOptions) (st : StateA)
    (parsedId : Option String) : String × StateA :=
  match parsedId with
  | some suppliedId => (suppliedId, st)
  | none => (opts.idFactory st.idCalls, { st with idCalls := st.idCalls + 1 })

/-- `addWork` in the aliasing model.  The object literal `const work = ...`
allocates the canonical object; `works.set(work.id, work)` stores its
address; the changelog payload and the returned value are two further
fresh clones of it. -/
def addWorkA (opts : CollectionOptions) (st : StateA) (input : WorkInput) :
    Except CollectionError Nat × StateA :=
  match parseWorkInput input with
  | .error e => (.error e, st)
  | .ok parsed =>
    let (id, st1) := resolveIdA opts st parsed.id
    if (mapGet st1.works id).isSome then
      (.error (.duplicateIdError id), st1)
    else
      let timestamp := opts.now st1.nowCalls
      let st2 := { st1 with nowCalls := st1.nowCalls + 1 }
      let (workAddr, h1) := alloc st2.heap (builtWork parsed id timestamp)
      let st3 := { st2 with heap := h1, works := st2.works ++ [(id, workAddr)] }
      let (snapAddr, h2) := cloneWorkA st3.heap workAddr
      let st4 := recordChangeA opts { st3 with heap := h2 } "work.create"
        (.workCreate snapAddr)
      let (retAddr, h3) := cloneWorkA st4.heap workAddr
      (.ok retAddr, { st4 with heap := h3 })

/-- `removeWork` in the aliasing model. -/
def removeWorkA (opts : CollectionOptions) (st : StateA) (id : String) :
    Except CollectionError Nat × StateA :=
  match mapGet st.works id with
  | none => (.error (.notFoundError id), st)
  | some existingAddr =>
    let st1 := { st with works := mapDelete st.works id }
    let (snapAddr, h1) := cloneWorkA st1.heap existingAddr
    let st2 := recordChangeA opts { st1 with heap := h1 } "work.remove"
      (.workRemove id snapAddr)
    let (retAddr, h2) := cloneWorkA st2.heap existingAddr
    (.ok retAddr, { st2 with heap := h2 })

/-- `getWork` in the aliasing model: hand the caller a fresh clone of the
stored object (or `none`). -/
def getWorkA (st : StateA) (id : String) : Option Nat × StateA :=
  match mapGet st.works id with
  | none => (none, st)
  | some a =>
    let (retAddr, h1) := cloneWorkA st.heap a
    (some retAddr, { st with heap := h1 })

/-- The field values a caller observes from `getWork(id)` (the returned
clone carries exactly the stored object's fields). -/
def getWorkVal (st : StateA) (id : String) : Option Work :=
  (mapGet st.works id).map (readCell st.heap)

/-- The field values a caller observes from `listWorks()`. -/
def listWorksVal (st : StateA) : List Work :=
  st.works.map (fun p => readCell st.heap p.2)

/-- The value of one changelog entry as observed through `getChangeLog()`
(the deep clone hands back exactly the snapshot cell's fields). -/
def entryVal (st : StateA) (e : EntryRef) : ChangeLogEntry :=
  { id := e.id, timestamp := e.timestamp, opType := e.opType
    payloadJson :=
      match e.payloadJson with
      | .workCreate a => .workCreate (readCell st.heap a)
      | .workRemove workId a => .workRemove workId (readCell st.heap a) }

/-- The values a caller observes from `getChangeLog()`. -/
def getChangeLogVal (st : StateA) : List ChangeLogEntry :=
  st.changeLog.map (entryVal st)

/-- Every address the collection's internals reference is allocated. -/
def WellFormed (st : StateA) : Prop :=
  (∀ p ∈ st.works, p.2 < st.heap.cells.length) ∧
  (∀ e ∈ st.changeLog, refAddr e.payloadJson < st.heap.cells.length)

/-- The caller mutates (overwrites the fields of) the object at address
`a` that it was handed. -/
def writeSt (st : StateA) (a : Nat) (w : Work) : StateA :=
  { st with heap := writeCell st.heap a w }

/-- Two states under which every subsequent `getWork`, `listWorks` and
`getChangeLog` call observes the same values. -/
def ValsEq (st1 st2 : StateA) : Prop :=
  (∀ id, getWorkVal st1 id = getWorkVal st2 id) ∧
  listWorksVal st1 = listWorksVal st2 ∧
  getChangeLogVal st1 = getChangeLogVal st2

end Alias

/-! ### Concrete fixtures (used to instantiate the claims) -/

/-- A constant injected clock together with a deterministic id factory
yielding `"gid0", "gid1", …`. -/
def fixedOpts (t : Int) : CollectionOptions :=
  { now := fun _ => t, idFactory := fun n => "gid" ++ toString n }

/-- A stored work used in duplicate/removal scenarios. -/
def w1Fixture : Work :=
  { id := "w1", displayTitle := "T", mediaTypeKey := "m"
    createdAt := 1, updatedAt := 2 }

/-- A collection state already holding `w1Fixture` under key `"w1"`. -/
def dupStateFixture : CollectionState :=
  { works := [("w1", w1Fixture)], changeLog := [], nowCalls := 5, idCalls := 7 }

/-- An `addWork` input re-using the stored id `"w1"`. -/
def dupInputFixture : WorkInput :=
  { id := some "w1", displayTitle := "B", mediaTypeKey := "m" }

/-! ### Basic computation lemmas -/

lemma cloneWork_id (work : Work) : cloneWork work = work := rfl

lemma clonePayload_id (payload : Payload) : clonePayload payload = payload := by
  cases payload <;> rfl

lemma cloneChangeLogEntry_id (entry : ChangeLogEntry) :
    cloneChangeLogEntry entry = entry := by
  simp [cloneChangeLogEntry, clonePayload_id]

lemma getChangeLog_eq (st : CollectionState) :
    getChangeLog st = st.changeLog := by
  have h : cloneChangeLogEntry = fun e => e := funext cloneChangeLogEntry_id
  simp [getChangeLog, h]

lemma listWorks_eq (st : CollectionState) :
    listWorks st = st.works.map Prod.snd := by
  simp [listWorks, cloneWork_id]

lemma getWork_eq (st : CollectionState) (id : String) :
    getWork st id = mapGet st.works id := by
  have h : cloneWork = fun w => w := funext cloneWork_id
  simp [getWork, h]

lemma resolveId_works (opts : CollectionOptions) (st : CollectionState)
    (parsedId : Option String) :
    (resolveId opts st parsedId).2.works = st.works := by
  cases parsedId <;> rfl

lemma resolveId_changeLog (opts : CollectionOptions) (st : CollectionState)
    (parsedId : Option String) :
    (resolveId opts st parsedId).2.changeLog = st.changeLog := by
  cases parsedId <;> rfl

lemma resolveId_nowCalls (opts : CollectionOptions) (st : CollectionState)
    (parsedId : Option String) :
    (resolveId opts st parsedId).2.nowCalls = st.nowCalls := by
  cases parsedId <;> rfl

/-! ### Shape lemmas: the exact result of each call, by case -/

/-- `addWork` when validation fails: the error propagates, nothing happened. -/
lemma addWork_parseError_spec (opts : CollectionOptions) (st : CollectionState)
    (input : WorkInput) (e : CollectionError)
    (hp : parseWorkInput input = .error e) :
    addWork opts st input = (.error e, st) := by
  simp [addWork, hp]

/-- `addWork` when the resolved id is already in the map: throws the
duplicate-id error after the id resolution, before any clock call, store
write or changelog append. -/
lemma addWork_dup_spec (opts : CollectionOptions) (st : CollectionState)
    (input parsed : WorkInput) (id : String) (st1 : CollectionState)
    (w : Work)
    (hp : parseWorkInput input = .ok parsed)
    (hr : resolveId opts st parsed.id = (id, st1))
    (hdup : mapGet st1.works id = some w) :
    addWork opts st input = (.error (.duplicateIdError id), st1) := by
  simp [addWork, hp, hr, hdup]

/-- `addWork` on fresh id: the exact returned work and post state.
The work's timestamp is the first clock call `opts.now st.nowCalls`; the
changelog entry draws the next factory id and a second clock value. -/
lemma addWork_ok_spec (opts : CollectionOptions) (st : CollectionState)
    (input parsed : WorkInput) (id : String) (st1 : CollectionState)
    (hp : parseWorkInput input = .ok parsed)
    (hr : resolveId opts st parsed.id = (id, st1))
    (hdup : mapGet st1.works id = none) :
    addWork opts st input =
      (.ok (builtWork parsed id (opts.now st.nowCalls)),
       { works := st.works ++
           [(id, builtWork parsed id (opts.now st.nowCalls))]
         changeLog := st.changeLog ++
           [{ id := opts.idFactory st1.idCalls
              timestamp := opts.now (st.nowCalls + 1)
              opType := "work.create"
              payloadJson := .workCreate
                (builtWork parsed id (opts.now st.nowCalls)) }]
         nowCalls := st.nowCalls + 2
         idCalls := st1.idCalls + 1 }) := by
  have h2 : (resolveId opts st parsed.id).2 = st1 := congrArg Prod.snd hr
  have hworks : st1.works = st.works := by rw [← h2, resolveId_works]
  have hcl : st1.changeLog = st.changeLog := by rw [← h2, resolveId_changeLog]
  have hnc : st1.nowCalls = st.nowCalls := by rw [← h2, resolveId_nowCalls]
  rw [hworks] at hdup
  simp [addWork, hp, hr, hdup, recordChange, callNow, callIdFactory,
    cloneWork_id, builtWork, hworks, hcl, hnc]

/-- `removeWork` on a missing id: throws, state untouched (neither provider
is consulted before the check). -/
lemma removeWork_notFound_spec (opts : CollectionOptions)
    (st : CollectionState) (id : String)
    (hg : mapGet st.works id = none) :
    removeWork opts st id = (.error (.notFoundError id), st) := by
  simp [removeWork, hg]

/-- `removeWork` on a present id: the exact returned work and post state. -/
lemma removeWork_ok_spec (opts : CollectionOptions) (st : CollectionState)
    (id : String) (existing : Work)
    (hg : mapGet st.works id = some existing) :
    removeWork opts st id =
      (.ok existing,
       { works := mapDelete st.works id
         changeLog := st.changeLog ++
           [{ id := opts.idFactory st.idCalls
              timestamp := opts.now st.nowCalls
              opType := "work.remove"
              payloadJson := .workRemove id existing }]
         nowCalls := st.nowCalls + 1
         idCalls := st.idCalls + 1 }) := by
  simp [removeWork, hg, recordChange, callNow, callIdFactory, cloneWork_id]

lemma addWork_changeLog_opTypes (opts : CollectionOptions)
    (st : CollectionState) (input : WorkInput) :
    ((addWork opts st input).2.changeLog).map ChangeLogEntry.opType =
      st.changeLog.map ChangeLogEntry.opType ++
        (if accepted (addWork opts st input).1 then ["work.create"] else []) := by
  cases hp : parseWorkInput input with
  | error e => simp [addWork_parseError_spec opts st input e hp, accepted]
  | ok parsed =>
    cases hr : resolveId opts st parsed.id with
    | mk id st1 =>
      have h2 : (resolveId opts st parsed.id).2 = st1 := by rw [hr]
      have hcl : st1.changeLog = st.changeLog := by
        rw [← h2, resolveId_changeLog]
      cases hg : mapGet st1.works id with
      | some w =>
        simp [addWork_dup_spec opts st input parsed id st1 w hp hr hg, accepted, hcl]
      | none =>
        simp [addWork_ok_spec opts st input parsed id st1 hp hr hg, accepted]

lemma removeWork_changeLog_opTypes (opts : CollectionOptions)
    (st : CollectionState) (id : String) :
    ((removeWork opts st id).2.changeLog).map ChangeLogEntry.opType =
      st.changeLog.map ChangeLogEntry.opType ++
        (if accepted (removeWork opts st id).1 then ["work.remove"] else []) := by
  cases hg : mapGet st.works id with
  | none => simp [removeWork_notFound_spec opts st id hg, accepted]
  | some existing => simp [removeWork_ok_spec opts st id existing hg, accepted]

lemma runOps_changeLog_opTypes (opts : CollectionOptions) (ops : List Op) :
    ∀ st : CollectionState,
      ((runOps opts st ops).changeLog).map ChangeLogEntry.opType =
        st.changeLog.map ChangeLogEntry.opType ++ acceptedOpTypes opts st ops := by
  induction ops with
  | nil => intro st; simp [runOps, acceptedOpTypes]
  | cons op rest ih =>
    intro st
    rw [runOps, acceptedOpTypes, ih, ← List.append_assoc]
    congr 1
    cases op with
    | addOp input => exact addWork_changeLog_opTypes opts st input
    | removeOp id => exact removeWork_changeLog_opTypes opts st id

/-! ### Claim theorems -/

/-- C1 (determinism scenario): with an injected clock fixed at `T0` and an
injected id factory yielding `id1` then `id2`,
`addWork({displayTitle:"A", mediaTypeKey:"media.game"})` followed by
`getChangeLog()` yields exactly one entry
`{id: id2, timestamp: T0, opType: "work.create",
  payloadJson: {work: {id: id1, displayTitle:"A", mediaTypeKey:"media.game",
  createdAt: T0, updatedAt: T0}}}`; the first id drawn becomes the work's id
and the second the changelog entry's id. -/
theorem determinism_scenario_C1 (T0 : Int) (id1 id2 : String)
    (opts : CollectionOptions)
    (hnow : ∀ k, opts.now k = T0)
    (hid1 : opts.idFactory 0 = id1) (hid2 : opts.idFactory 1 = id2) :
    getChangeLog (addWork opts initialState
        { displayTitle := "A", mediaTypeKey := "media.game" }).2 =
      [{ id := id2, timestamp := T0, opType := "work.create"
         payloadJson := .workCreate
           { id := id1, displayTitle := "A", mediaTypeKey := "media.game"
             createdAt := T0, updatedAt := T0 } }] := by
  have hp : parseWorkInput { displayTitle := "A", mediaTypeKey := "media.game" } =
      .ok { id := none, displayTitle := "A", mediaTypeKey := "media.game"
            createdAt := none, updatedAt := none } := by rfl
  have hr : resolveId opts initialState
      (WorkInput.id { id := none, displayTitle := "A", mediaTypeKey := "media.game"
                      createdAt := none, updatedAt := none }) =
      (id1, { works := [], changeLog := [], nowCalls := 0, idCalls := 1 }) := by
    simp [resolveId, callIdFactory, initialState, hid1]
  have hdup : mapGet (CollectionState.works
      { works := [], changeLog := [], nowCalls := 0, idCalls := 1 }) id1 = none := rfl
  rw [addWork_ok_spec opts initialState _ _ id1 _ hp hr hdup, getChangeLog_eq]
  simp [initialState, builtWork, hnow, hid2]

/-- C1 witness: the scenario with `T0 = 1700000000000`, `id1 = "gid0"`,
`id2 = "gid1"`. -/
theorem determinism_scenario_C1_witness :
    (∀ k, (fixedOpts 1700000000000).now k = (1700000000000 : Int)) ∧
    (fixedOpts 1700000000000).idFactory 0 = "gid0" ∧
    (fixedOpts 1700000000000).idFactory 1 = "gid1" ∧
    getChangeLog (addWork (fixedOpts 1700000000000) initialState
        { displayTitle := "A", mediaTypeKey := "media.game" }).2 =
      [{ id := "gid1", timestamp := 1700000000000, opType := "work.create"
         payloadJson := .workCreate
           { id := "gid0", displayTitle := "A", mediaTypeKey := "media.game"
             createdAt := 1700000000000, updatedAt := 1700000000000 } }] :=
  ⟨fun _ => rfl, rfl, rfl,
    determinism_scenario_C1 1700000000000 "gid0" "gid1" (fixedOpts 1700000000000)
      (fun _ => rfl) rfl rfl⟩

/-- C2 (changelog completeness): any sequence of mutating calls on a fresh
collection yields one changelog entry per accepted call, in call order, with
`work.create` for an accepted `addWork` and `work.remove` for an accepted
`removeWork`. -/
theorem changelog_completeness_C2 (opts : CollectionOptions) (ops : List Op) :
    (getChangeLog (runOps opts initialState ops)).length =
        (acceptedOpTypes opts initialState ops).length ∧
      (getChangeLog (runOps opts initialState ops)).map ChangeLogEntry.opType =
        acceptedOpTypes opts initialState ops := by
  have h := runOps_changeLog_opTypes opts ops initialState
  rw [getChangeLog_eq]
  simp only [show initialState.changeLog = [] from rfl, List.map_nil,
    List.nil_append] at h
  refine ⟨?_, h⟩
  rw [← h, List.length_map]

/-- C3 (duplicate id rejected): when the resolved id (caller-supplied or
generated) is already a key of the store, `addWork` throws the duplicate-id
error, the store (and in particular the pre-existing work) is unchanged, and
the changelog is not extended. -/
theorem duplicate_id_rejected_C3 (opts : CollectionOptions)
    (st : CollectionState) (input parsed : WorkInput) (dupId : String)
    (st1 : CollectionState) (w : Work)
    (hp : parseWorkInput input = .ok parsed)
    (hr : resolveId opts st parsed.id = (dupId, st1))
    (hdup : mapGet st.works dupId = some w) :
    (addWork opts st input).1 = .error (.duplicateIdError dupId) ∧
      (addWork opts st input).2.works = st.works ∧
      (addWork opts st input).2.changeLog = st.changeLog ∧
      mapGet (addWork opts st input).2.works dupId = some w := by
  have h2 : (resolveId opts st parsed.id).2 = st1 := by rw [hr]
  have hworks : st1.works = st.works := by rw [← h2, resolveId_works]
  have hcl : st1.changeLog = st.changeLog := by rw [← h2, resolveId_changeLog]
  have hdup1 : mapGet st1.works dupId = some w := by rw [hworks]; exact hdup
  rw [addWork_dup_spec opts st input parsed dupId st1 w hp hr hdup1]
  exact ⟨rfl, hworks, hcl, by rw [hworks]; exact hdup⟩

/-- C3 witness: a store holding `w1Fixture` under `"w1"` and an `addWork`
re-using the caller-supplied id `"w1"`. -/
theorem duplicate_id_rejected_C3_witness :
    (parseWorkInput dupInputFixture =
      .ok { id := some "w1", displayTitle := "B", mediaTypeKey := "m"
            createdAt := none, updatedAt := none }) ∧
    (mapGet dupStateFixture.works "w1" = some w1Fixture) ∧
    ((addWork (fixedOpts 0) dupStateFixture dupInputFixture).1 =
        .error (.duplicateIdError "w1") ∧
      (addWork (fixedOpts 0) dupStateFixture dupInputFixture).2.works =
        dupStateFixture.works ∧
      (addWork (fixedOpts 0) dupStateFixture dupInputFixture).2.changeLog =
        dupStateFixture.changeLog ∧
      mapGet (addWork (fixedOpts 0) dupStateFixture dupInputFixture).2.works
        "w1" = some w1Fixture) :=
  ⟨rfl, rfl,
    duplicate_id_rejected_C3 (fixedOpts 0) dupStateFixture dupInputFixture
      { id := some "w1", displayTitle := "B", mediaTypeKey := "m"
        createdAt := none, updatedAt := none }
      "w1" dupStateFixture w1Fixture rfl rfl rfl⟩

/-! ### Further helper lemmas -/

lemma parseWorkInput_fields (input parsed : WorkInput)
    (hp : parseWorkInput input = .ok parsed) :
    parsed.id = input.id.map jsTrim ∧
      parsed.displayTitle = jsTrim input.displayTitle ∧
      parsed.mediaTypeKey = jsTrim input.mediaTypeKey ∧
      parsed.createdAt = input.createdAt ∧
      parsed.updatedAt = input.updatedAt := by
  by_cases h1 : ((input.id.map jsTrim).any (fun s => s.length == 0)) = true
  · simp [parseWorkInput, h1] at hp
  · by_cases h2 : ((jsTrim input.displayTitle).length == 0) = true
    · simp [parseWorkInput, h1, h2] at hp
    · by_cases h3 : ((jsTrim input.mediaTypeKey).length == 0) = true
      · simp [parseWorkInput, h1, h2, h3] at hp
      · simp [parseWorkInput, h1, h2, h3] at hp
        subst hp
        simp

lemma mapGet_append_self {α : Type} (l : List (String × α)) (id : String)
    (w : α) (h : mapGet l id = none) : mapGet (l ++ [(id, w)]) id = some w := by
  induction l with
  | nil => simp [mapGet]
  | cons p rest ih =>
    rw [mapGet] at h
    rw [List.cons_append, mapGet]
    split at h
    · cases h
    · next hk => rw [if_neg hk]; exact ih h

lemma mapGet_mapDelete {α : Type} (l : List (String × α)) (id : String) :
    mapGet (mapDelete l id) id = none := by
  induction l with
  | nil => rfl
  | cons p rest ih =>
    by_cases hk : p.1 = id
    · simpa [mapDelete, hk] using ih
    · simpa [mapDelete, mapGet, hk] using ih

/-- C5 counterexample: `addWork` accepts explicit `createdAt = 1`,
`updatedAt = 0` and both returns and stores a work with
`createdAt > updatedAt`, so the invariant `createdAt ≤ updatedAt` does not
hold for every stored/returned work. -/
theorem createdAt_le_updatedAt_C5_counterexample :
    (addWork (fixedOpts 100) initialState
        { displayTitle := "A", mediaTypeKey := "m"
          createdAt := some 1, updatedAt := some 0 }).1 =
      .ok { id := "gid0", displayTitle := "A", mediaTypeKey := "m"
            createdAt := 1, updatedAt := 0 } ∧
    mapGet (addWork (fixedOpts 100) initialState
        { displayTitle := "A", mediaTypeKey := "m"
          createdAt := some 1, updatedAt := some 0 }).2.works "gid0" =
      some { id := "gid0", displayTitle := "A", mediaTypeKey := "m"
             createdAt := 1, updatedAt := 0 } ∧
    ¬ ((1 : Int) ≤ (0 : Int)) :=
  ⟨rfl, rfl, by decide⟩

/-- C5 amended: `createdAt ≤ updatedAt` holds for the work returned (and
stored) by an accepted `addWork` whenever the caller supplies no explicit
`updatedAt` (then `updatedAt` equals the effective `createdAt`); an explicit
`updatedAt` is stored verbatim, so with an explicit `updatedAt` smaller than
the effective `createdAt` the invariant is violated. -/
theorem createdAt_le_updatedAt_C5 (opts : CollectionOptions)
    (st : CollectionState) (input parsed : WorkInput) (id : String)
    (st1 : CollectionState)
    (hp : parseWorkInput input = .ok parsed)
    (hr : resolveId opts st parsed.id = (id, st1))
    (hdup : mapGet st1.works id = none)
    (hup : input.updatedAt = none) :
    (addWork opts st input).1 =
        .ok (builtWork parsed id (opts.now st.nowCalls)) ∧
      (builtWork parsed id (opts.now st.nowCalls)).createdAt ≤
        (builtWork parsed id (opts.now st.nowCalls)).updatedAt ∧
      mapGet (addWork opts st input).2.works id =
        some (builtWork parsed id (opts.now st.nowCalls)) := by
  have hspec := addWork_ok_spec opts st input parsed id st1 hp hr hdup
  have hfields := parseWorkInput_fields input parsed hp
  have hupP : parsed.updatedAt = none := by rw [hfields.2.2.2.2, hup]
  have hworks : st1.works = st.works := by
    have h2 : (resolveId opts st parsed.id).2 = st1 := by rw [hr]
    rw [← h2, resolveId_works]
  refine ⟨by rw [hspec], ?_, ?_⟩
  · simp [builtWork, hupP]
  · rw [hspec]
    exact mapGet_append_self st.works id _ (by rw [← hworks]; exact hdup)

/-- C5 witness: an accepted `addWork` with explicit `createdAt` and no
`updatedAt`. -/
theorem createdAt_le_updatedAt_C5_witness :
    (parseWorkInput { displayTitle := "A", mediaTypeKey := "m"
                      createdAt := some 42 } =
      .ok { id := none, displayTitle := "A", mediaTypeKey := "m"
            createdAt := some 42, updatedAt := none }) ∧
    (resolveId (fixedOpts 100) initialState
        (WorkInput.id { id := none, displayTitle := "A", mediaTypeKey := "m"
                        createdAt := some 42, updatedAt := none }) =
      ("gid0", { works := [], changeLog := [], nowCalls := 0, idCalls := 1 })) ∧
    ((addWork (fixedOpts 100) initialState
        { displayTitle := "A", mediaTypeKey := "m", createdAt := some 42 }).1 =
      .ok (builtWork
        { id := none, displayTitle := "A", mediaTypeKey := "m"
          createdAt := some 42, updatedAt := none } "gid0" 100) ∧
      (builtWork
        { id := none, displayTitle := "A", mediaTypeKey := "m"
          createdAt := some 42, updatedAt := none } "gid0" 100).createdAt ≤
        (builtWork
          { id := none, displayTitle := "A", mediaTypeKey := "m"
            createdAt := some 42, updatedAt := none } "gid0" 100).updatedAt ∧
      mapGet (addWork (fixedOpts 100) initialState
          { displayTitle := "A", mediaTypeKey := "m"
            createdAt := some 42 }).2.works "gid0" =
        some (builtWork
          { id := none, displayTitle := "A", mediaTypeKey := "m"
            createdAt := some 42, updatedAt := none } "gid0" 100)) :=
  ⟨rfl, rfl,
    createdAt_le_updatedAt_C5 (fixedOpts 100) initialState
      { displayTitle := "A", mediaTypeKey := "m", createdAt := some 42 }
      { id := none, displayTitle := "A", mediaTypeKey := "m"
        createdAt := some 42, updatedAt := none }
      "gid0" { works := [], changeLog := [], nowCalls := 0, idCalls := 1 }
      rfl rfl rfl rfl⟩

/-- C6 (timestamp defaulting): an accepted `addWork` with no explicit
timestamps returns a work with `createdAt = updatedAt = now()` at call time;
with an explicit `createdAt = T` and no `updatedAt` it returns a work with
`createdAt = T` and `updatedAt = T` (the caller-supplied `createdAt` is
preserved, not overwritten by the clock). -/
theorem timestamp_defaulting_C6 (opts : CollectionOptions)
    (st : CollectionState) (input parsed : WorkInput) (id : String)
    (st1 : CollectionState)
    (hp : parseWorkInput input = .ok parsed)
    (hr : resolveId opts st parsed.id = (id, st1))
    (hdup : mapGet st1.works id = none) :
    (addWork opts st input).1 =
        .ok (builtWork parsed id (opts.now st.nowCalls)) ∧
      (input.createdAt = none → input.updatedAt = none →
        (builtWork parsed id (opts.now st.nowCalls)).createdAt =
            opts.now st.nowCalls ∧
          (builtWork parsed id (opts.now st.nowCalls)).updatedAt =
            opts.now st.nowCalls) ∧
      (∀ T : Int, input.createdAt = some T → input.updatedAt = none →
        (builtWork parsed id (opts.now st.nowCalls)).createdAt = T ∧
          (builtWork parsed id (opts.now st.nowCalls)).updatedAt = T) := by
  have hspec := addWork_ok_spec opts st input parsed id st1 hp hr hdup
  have hfields := parseWorkInput_fields input parsed hp
  refine ⟨by rw [hspec], ?_, ?_⟩
  · intro hc hu
    have hcP : parsed.createdAt = none := by rw [hfields.2.2.2.1, hc]
    have huP : parsed.updatedAt = none := by rw [hfields.2.2.2.2, hu]
    simp [builtWork, hcP, huP]
  · intro T hc hu
    have hcP : parsed.createdAt = some T := by rw [hfields.2.2.2.1, hc]
    have huP : parsed.updatedAt = none := by rw [hfields.2.2.2.2, hu]
    simp [builtWork, hcP, huP]

/-- C6 witness: `addWork({displayTitle:"A", mediaTypeKey:"m",
createdAt: 42})` under a clock fixed at `100` yields
`createdAt = updatedAt = 42`. -/
theorem timestamp_defaulting_C6_witness :
    (parseWorkInput { displayTitle := "A", mediaTypeKey := "m"
                      createdAt := some 42 } =
      .ok { id := none, displayTitle := "A", mediaTypeKey := "m"
            createdAt := some 42, updatedAt := none }) ∧
    ((addWork (fixedOpts 100) initialState
        { displayTitle := "A", mediaTypeKey := "m", createdAt := some 42 }).1 =
      .ok (builtWork
        { id := none, displayTitle := "A", mediaTypeKey := "m"
          createdAt := some 42, updatedAt := none } "gid0" 100) ∧
      (WorkInput.createdAt
          { displayTitle := "A", mediaTypeKey := "m", createdAt := some 42 } =
            none →
        WorkInput.updatedAt
          { displayTitle := "A", mediaTypeKey := "m", createdAt := some 42 } =
            none →
        (builtWork
          { id := none, displayTitle := "A", mediaTypeKey := "m"
            createdAt := some 42, updatedAt := none } "gid0" 100).createdAt =
            100 ∧
          (builtWork
            { id := none, displayTitle := "A", mediaTypeKey := "m"
              createdAt := some 42, updatedAt := none } "gid0" 100).updatedAt =
            100) ∧
      (∀ T : Int,
        WorkInput.createdAt
          { displayTitle := "A", mediaTypeKey := "m", createdAt := some 42 } =
            some T →
        WorkInput.updatedAt
          { displayTitle := "A", mediaTypeKey := "m", createdAt := some 42 } =
            none →
        (builtWork
          { id := none, displayTitle := "A", mediaTypeKey := "m"
            createdAt := some 42, updatedAt := none } "gid0" 100).createdAt =
            T ∧
          (builtWork
            { id := none, displayTitle := "A", mediaTypeKey := "m"
              createdAt := some 42, updatedAt := none } "gid0" 100).updatedAt =
            T)) :=
  ⟨rfl,
    timestamp_defaulting_C6 (fixedOpts 100) initialState
      { displayTitle := "A", mediaTypeKey := "m", createdAt := some 42 }
      { id := none, displayTitle := "A", mediaTypeKey := "m"
        createdAt := some 42, updatedAt := none }
      "gid0" { works := [], changeLog := [], nowCalls := 0, idCalls := 1 }
      rfl rfl rfl⟩

lemma addWork_keyed (opts : CollectionOptions) (st : CollectionState)
    (input : WorkInput) (h : KeyedByOwnId st) :
    KeyedByOwnId (addWork opts st input).2 := by
  cases hp : parseWorkInput input with
  | error e => rw [addWork_parseError_spec opts st input e hp]; exact h
  | ok parsed =>
    cases hr : resolveId opts st parsed.id with
    | mk id st1 =>
      have h2 : (resolveId opts st parsed.id).2 = st1 := by rw [hr]
      have hworks : st1.works = st.works := by rw [← h2, resolveId_works]
      cases hg : mapGet st1.works id with
      | some w =>
        rw [addWork_dup_spec opts st input parsed id st1 w hp hr hg]
        intro p hp'
        rw [hworks] at hp'
        exact h p hp'
      | none =>
        rw [addWork_ok_spec opts st input parsed id st1 hp hr hg]
        intro p hp'
        rcases List.mem_append.mp hp' with hmem | hmem
        · exact h p hmem
        · rcases List.mem_singleton.mp hmem with rfl
          rfl

lemma removeWork_keyed (opts : CollectionOptions) (st : CollectionState)
    (id : String) (h : KeyedByOwnId st) :
    KeyedByOwnId (removeWork opts st id).2 := by
  cases hg : mapGet st.works id with
  | none => rw [removeWork_notFound_spec opts st id hg]; exact h
  | some existing =>
    rw [removeWork_ok_spec opts st id existing hg]
    intro p hp'
    exact h p (List.mem_of_mem_filter hp')

/-- Every reachable collection state is keyed by the works' own ids, so
the hypothesis of the removal-audit theorem below holds for every state a
caller can actually produce. -/
lemma runOps_keyed (opts : CollectionOptions) (ops : List Op) :
    KeyedByOwnId (runOps opts initialState ops) := by
  suffices hgen : ∀ st : CollectionState, KeyedByOwnId st →
      KeyedByOwnId (runOps opts st ops) by
    refine hgen initialState ?_
    intro p hp
    cases hp
  induction ops with
  | nil => intro st h; exact h
  | cons op rest ih =>
    intro st h
    rw [runOps]
    refine ih (applyOp opts st op).2 ?_
    cases op with
    | addOp input => exact addWork_keyed opts st input h
    | removeOp id => exact removeWork_keyed opts st id h

/-- C7 (removal audit): `removeWork(id)` on a present id returns the stored
work, leaves no entry under that id (so `getWork` misses and no listed work
carries that id any more), and appends exactly one `work.remove` changelog
entry whose payload holds both the id and the snapshot of the removed
entity.  The hypothesis `hkeys` is the store invariant that every entry is
keyed by its own work's id, which `works.set(work.id, work)` maintains. -/
theorem removal_audit_C7 (opts : CollectionOptions) (st : CollectionState)
    (id : String) (existing : Work)
    (hg : mapGet st.works id = some existing)
    (hkeys : KeyedByOwnId st) :
    (removeWork opts st id).1 = .ok existing ∧
      getWork (removeWork opts st id).2 id = none ∧
      (∀ w ∈ listWorks (removeWork opts st id).2, w.id ≠ id) ∧
      (removeWork opts st id).2.changeLog = st.changeLog ++
        [{ id := opts.idFactory st.idCalls
           timestamp := opts.now st.nowCalls
           opType := "work.remove"
           payloadJson := .workRemove id existing }] := by
  have hspec := removeWork_ok_spec opts st id existing hg
  refine ⟨by rw [hspec], ?_, ?_, by rw [hspec]⟩
  · rw [hspec, getWork_eq]
    exact mapGet_mapDelete st.works id
  · intro w hw
    rw [hspec, listWorks_eq] at hw
    obtain ⟨p, hp, rfl⟩ := List.mem_map.mp hw
    have hpmem : p ∈ st.works := List.mem_of_mem_filter hp
    have hpkey : p.1 ≠ id := by
      have := List.of_mem_filter hp
      simpa using this
    rw [hkeys p hpmem]
    exact hpkey

/-- C7 witness: removing `"w1"` from a store holding `w1Fixture`. -/
theorem removal_audit_C7_witness :
    (mapGet dupStateFixture.works "w1" = some w1Fixture) ∧
    KeyedByOwnId dupStateFixture ∧
    ((removeWork (fixedOpts 9) dupStateFixture "w1").1 = .ok w1Fixture ∧
      getWork (removeWork (fixedOpts 9) dupStateFixture "w1").2 "w1" = none ∧
      (∀ w ∈ listWorks (removeWork (fixedOpts 9) dupStateFixture "w1").2,
        w.id ≠ "w1") ∧
      (removeWork (fixedOpts 9) dupStateFixture "w1").2.changeLog =
        dupStateFixture.changeLog ++
          [{ id := (fixedOpts 9).idFactory dupStateFixture.idCalls
             timestamp := (fixedOpts 9).now dupStateFixture.nowCalls
             opType := "work.remove"
             payloadJson := .workRemove "w1" w1Fixture }]) :=
  ⟨rfl, by unfold KeyedByOwnId; decide,
    removal_audit_C7 (fixedOpts 9) dupStateFixture "w1" w1Fixture rfl
      (by unfold KeyedByOwnId; decide)⟩

/-- C8 (missing reference): `removeWork` on an id absent from the store
throws the not-found error and returns the state entirely unchanged: no
changelog entry, no store change, not even a provider call. -/
theorem missing_remove_C8 (opts : CollectionOptions) (st : CollectionState)
    (id : String) (hg : mapGet st.works id = none) :
    (removeWork opts st id).1 = .error (.notFoundError id) ∧
      (removeWork opts st id).2 = st := by
  rw [removeWork_notFound_spec opts st id hg]
  exact ⟨rfl, rfl⟩

/-- C8 witness: `removeWork("missing")` on a nonempty store. -/
theorem missing_remove_C8_witness :
    (mapGet dupStateFixture.works "missing" = none) ∧
    ((removeWork (fixedOpts 9) dupStateFixture "missing").1 =
        .error (.notFoundError "missing") ∧
      (removeWork (fixedOpts 9) dupStateFixture "missing").2 =
        dupStateFixture) :=
  ⟨rfl, missing_remove_C8 (fixedOpts 9) dupStateFixture "missing" rfl⟩

/-- C9 (trim/validation): `addWork({displayTitle: "  ",
mediaTypeKey: "media.game"})` throws the validation error addressed at
`displayTitle` (whose message names that field) and leaves the state — store
and changelog included — unchanged; `addWork({displayTitle:
"  Chrono Trigger ", mediaTypeKey: "media.game"})` on a fresh collection
succeeds, and both the returned and the stored work carry the trimmed
`displayTitle = "Chrono Trigger"`. -/
theorem trim_validation_C9 (opts : CollectionOptions) (st : CollectionState) :
    (addWork opts st { displayTitle := "  ", mediaTypeKey := "media.game" } =
      (.error (.validationError "displayTitle" minLengthMessage), st)) ∧
    errorMessage (.validationError "displayTitle" minLengthMessage) =
      "Work input invalid for displayTitle: String must contain at least 1 character(s)" ∧
    ((addWork opts initialState
        { displayTitle := "  Chrono Trigger ", mediaTypeKey := "media.game" }).1 =
      .ok { id := opts.idFactory 0, displayTitle := "Chrono Trigger"
            mediaTypeKey := "media.game"
            createdAt := opts.now 0, updatedAt := opts.now 0 }) ∧
    mapGet (addWork opts initialState
        { displayTitle := "  Chrono Trigger ", mediaTypeKey := "media.game" }).2.works
        (opts.idFactory 0) =
      some { id := opts.idFactory 0, displayTitle := "Chrono Trigger"
             mediaTypeKey := "media.game"
             createdAt := opts.now 0, updatedAt := opts.now 0 } := by
  have hp1 : parseWorkInput { displayTitle := "  ", mediaTypeKey := "media.game" } =
      .error (.validationError "displayTitle" minLengthMessage) := rfl
  have hp2 : parseWorkInput
      { displayTitle := "  Chrono Trigger ", mediaTypeKey := "media.game" } =
      .ok { id := none, displayTitle := "Chrono Trigger"
            mediaTypeKey := "media.game", createdAt := none
            updatedAt := none } := rfl
  have hr : resolveId opts initialState
      (WorkInput.id { id := none, displayTitle := "Chrono Trigger"
                      mediaTypeKey := "media.game", createdAt := none
                      updatedAt := none }) =
      (opts.idFactory 0,
       { works := [], changeLog := [], nowCalls := 0, idCalls := 1 }) := rfl
  have hdup : mapGet (CollectionState.works
      { works := [], changeLog := [], nowCalls := 0, idCalls := 1 })
      (opts.idFactory 0) = none := rfl
  have hspec := addWork_ok_spec opts initialState _ _ (opts.idFactory 0) _
    hp2 hr hdup
  refine ⟨addWork_parseError_spec opts st _ _ hp1, rfl, ?_, ?_⟩
  · rw [hspec]; rfl
  · rw [hspec]
    simp [initialState, mapGet, builtWork]

/-- C10 (caller-supplied id trimmed and validated): an input whose `id` is
only whitespace is rejected with the validation error addressed at `id`,
with the state unchanged (in particular the id factory is never consulted,
so no generated id is substituted); an input whose `id` has surrounding
whitespace is accepted and the work is returned, stored and keyed under the
trimmed id. -/
theorem id_trim_validation_C10 (opts : CollectionOptions)
    (st : CollectionState) :
    (addWork opts st
        { id := some "   ", displayTitle := "A", mediaTypeKey := "m" } =
      (.error (.validationError "id" minLengthMessage), st)) ∧
    ((addWork opts initialState
        { id := some "  work-1  ", displayTitle := "A"
          mediaTypeKey := "m" }).1 =
      .ok { id := "work-1", displayTitle := "A", mediaTypeKey := "m"
            createdAt := opts.now 0, updatedAt := opts.now 0 }) ∧
    ((addWork opts initialState
        { id := some "  work-1  ", displayTitle := "A"
          mediaTypeKey := "m" }).2.works =
      [("work-1", { id := "work-1", displayTitle := "A", mediaTypeKey := "m"
                    createdAt := opts.now 0, updatedAt := opts.now 0 })]) ∧
    getWork (addWork opts initialState
        { id := some "  work-1  ", displayTitle := "A"
          mediaTypeKey := "m" }).2 "work-1" =
      some { id := "work-1", displayTitle := "A", mediaTypeKey := "m"
             createdAt := opts.now 0, updatedAt := opts.now 0 } := by
  have hp1 : parseWorkInput
      { id := some "   ", displayTitle := "A", mediaTypeKey := "m" } =
      .error (.validationError "id" minLengthMessage) := rfl
  have hp2 : parseWorkInput
      { id := some "  work-1  ", displayTitle := "A", mediaTypeKey := "m" } =
      .ok { id := some "work-1", displayTitle := "A", mediaTypeKey := "m"
            createdAt := none, updatedAt := none } := rfl
  have hr : resolveId opts initialState
      (WorkInput.id { id := some "work-1", displayTitle := "A"
                      mediaTypeKey := "m", createdAt := none
                      updatedAt := none }) =
      ("work-1", initialState) := rfl
  have hdup : mapGet initialState.works "work-1" = none := rfl
  have hspec := addWork_ok_spec opts initialState _ _ "work-1" initialState
    hp2 hr hdup
  refine ⟨addWork_parseError_spec opts st _ _ hp1, ?_, ?_, ?_⟩
  · rw [hspec]; rfl
  · rw [hspec]; rfl
  · rw [hspec, getWork_eq]
    simp [initialState, mapGet, builtWork]

/-! ### Aliasing-model lemmas and the isolation claim -/

namespace Alias

lemma readCell_writeCell_ne (h : Heap) (a b : Nat) (w : Work) (hne : b ≠ a) :
    readCell (writeCell h a w) b = readCell h b := by
  unfold readCell writeCell
  rw [List.getD_eq_getD_get?, List.getD_eq_getD_get?]
  simp only [List.get?_eq_getElem?]
  rw [List.getElem?_set_ne (fun e => hne e.symm)]

lemma readCell_append_lt (cells : List Work) (tail : List Work) (b : Nat)
    (hb : b < cells.length) :
    readCell ⟨cells ++ tail⟩ b = readCell ⟨cells⟩ b := by
  unfold readCell
  exact List.getD_append cells tail danglingWork b hb

lemma readCell_append_self (cells : List Work) (w : Work) :
    readCell ⟨cells ++ [w]⟩ cells.length = w := by
  unfold readCell
  rw [List.getD_append_right cells [w] danglingWork cells.length le_rfl]
  simp

lemma mapGet_mem {α : Type} (l : List (String × α)) (id : String) (b : α)
    (h : mapGet l id = some b) : (id, b) ∈ l := by
  induction l with
  | nil => cases h
  | cons p rest ih =>
    rw [mapGet] at h
    split at h
    · next hk => cases h; exact hk ▸ List.mem_cons_self p rest
    · exact List.mem_cons_of_mem p (ih h)

/-- Overwriting an address none of the collection's internals reference
changes none of the observable read results. -/
lemma valsEq_writeSt_of_fresh (st : StateA) (a : Nat) (w : Work)
    (hw : ∀ p ∈ st.works, p.2 ≠ a)
    (hc : ∀ e ∈ st.changeLog, refAddr e.payloadJson ≠ a) :
    ValsEq (writeSt st a w) st := by
  refine ⟨?_, ?_, ?_⟩
  · intro qid
    unfold getWorkVal writeSt
    cases hg : mapGet st.works qid with
    | none => rfl
    | some b =>
      have hb : b ≠ a := hw (qid, b) (mapGet_mem st.works qid b hg)
      simp [readCell_writeCell_ne st.heap a b w hb]
  · unfold listWorksVal writeSt
    refine List.map_congr_left ?_
    intro p hp
    exact readCell_writeCell_ne st.heap a p.2 w (hw p hp)
  · unfold getChangeLogVal writeSt
    refine List.map_congr_left ?_
    intro e he
    have hb := hc e he
    unfold entryVal
    cases hpj : e.payloadJson with
    | workCreate b =>
      rw [hpj] at hb
      simp [readCell_writeCell_ne st.heap a b w hb]
    | workRemove workId b =>
      rw [hpj] at hb
      simp [readCell_writeCell_ne st.heap a b w hb]

lemma readCell_append_first (cells : List Work) (w : Work)
    (tail : List Work) :
    readCell ⟨cells ++ (w :: tail)⟩ cells.length = w := by
  unfold readCell
  rw [List.getD_append_right _ _ _ _ le_rfl]
  simp

lemma resolveIdA_heap (opts : CollectionOptions) (st : StateA)
    (parsedId : Option String) : (resolveIdA opts st parsedId).2.heap = st.heap := by
  cases parsedId <;> rfl

lemma resolveIdA_works (opts : CollectionOptions) (st : StateA)
    (parsedId : Option String) : (resolveIdA opts st parsedId).2.works = st.works := by
  cases parsedId <;> rfl

lemma resolveIdA_changeLog (opts : CollectionOptions) (st : StateA)
    (parsedId : Option String) :
    (resolveIdA opts st parsedId).2.changeLog = st.changeLog := by
  cases parsedId <;> rfl

lemma resolveIdA_nowCalls (opts : CollectionOptions) (st : StateA)
    (parsedId : Option String) :
    (resolveIdA opts st parsedId).2.nowCalls = st.nowCalls := by
  cases parsedId <;> rfl

/-- `addWork` on a fresh id, aliasing model: three cells are allocated —
the canonical stored object, the changelog snapshot, and the returned
clone — and the returned address is referenced by neither the store nor
the changelog. -/
lemma addWorkA_ok_spec (opts : CollectionOptions) (st : StateA)
    (input parsed : WorkInput) (id : String) (st1 : StateA)
    (hp : parseWorkInput input = .ok parsed)
    (hr : resolveIdA opts st parsed.id = (id, st1))
    (hdup : mapGet st1.works id = none) :
    addWorkA opts st input =
      (.ok (st.heap.cells.length + 2),
       { heap := ⟨st.heap.cells ++
           [builtWork parsed id (opts.now st.nowCalls),
            builtWork parsed id (opts.now st.nowCalls),
            builtWork parsed id (opts.now st.nowCalls)]⟩
         works := st.works ++ [(id, st.heap.cells.length)]
         changeLog := st.changeLog ++
           [{ id := opts.idFactory st1.idCalls
              timestamp := opts.now (st.nowCalls + 1)
              opType := "work.create"
              payloadJson := .workCreate (st.heap.cells.length + 1) }]
         nowCalls := st.nowCalls + 2
         idCalls := st1.idCalls + 1 }) := by
  have h2 : (resolveIdA opts st parsed.id).2 = st1 := by rw [hr]
  have hheap : st1.heap = st.heap := by rw [← h2, resolveIdA_heap]
  have hworks : st1.works = st.works := by rw [← h2, resolveIdA_works]
  have hcl : st1.changeLog = st.changeLog := by rw [← h2, resolveIdA_changeLog]
  have hnc : st1.nowCalls = st.nowCalls := by rw [← h2, resolveIdA_nowCalls]
  have hread1 : readCell ⟨st.heap.cells ++
      [builtWork parsed id (opts.now st.nowCalls)]⟩ st.heap.cells.length =
      builtWork parsed id (opts.now st.nowCalls) :=
    readCell_append_first st.heap.cells _ []
  have hread2 : readCell ⟨st.heap.cells ++
      [builtWork parsed id (opts.now st.nowCalls),
       builtWork parsed id (opts.now st.nowCalls)]⟩ st.heap.cells.length =
      builtWork parsed id (opts.now st.nowCalls) :=
    readCell_append_first st.heap.cells _ _
  rw [hworks] at hdup
  simp [addWorkA, hp, hr, hdup, alloc, cloneWorkA, recordChangeA,
    hheap, hworks, hcl, hnc, hread1, hread2, List.append_assoc]

lemma getWorkA_spec (st : StateA) (qid : String) (a0 : Nat)
    (hg : mapGet st.works qid = some a0) :
    getWorkA st qid =
      (some st.heap.cells.length,
       { st with heap := ⟨st.heap.cells ++ [readCell st.heap a0]⟩ }) := by
  simp [getWorkA, hg, cloneWorkA, alloc]

/-- `getWork` on a well-formed state: the store and changelog are left
unchanged, and overwriting the returned clone's address afterwards changes
no observable read result. -/
lemma getWorkA_isolated (st : StateA) (hwf : WellFormed st) (qid : String)
    (b : Nat) (st2 : StateA)
    (hget : getWorkA st qid = (some b, st2)) :
    st2.works = st.works ∧ st2.changeLog = st.changeLog ∧
      ∀ w, ValsEq (writeSt st2 b w) st2 := by
  cases hg : mapGet st.works qid with
  | none => simp [getWorkA, hg] at hget
  | some a0 =>
    rw [getWorkA_spec st qid a0 hg] at hget
    cases hget
    refine ⟨rfl, rfl, ?_⟩
    intro w
    apply valsEq_writeSt_of_fresh
    · intro p hp
      have := hwf.1 p hp
      omega
    · intro e he
      have := hwf.2 e he
      omega

/-- C4 (round-trip isolation): in the aliasing model, an accepted
`addWork` returns the address of a freshly allocated clone referenced by
neither the store nor any changelog payload, so overwriting the returned
object's fields afterwards never changes what a subsequent `getWork`,
`listWorks` or `getChangeLog` call returns; likewise `getWork` is a pure
read — it leaves the store and the changelog unchanged and hands back a
fresh clone whose mutation changes no subsequent read either. -/
theorem isolation_C4 (opts : CollectionOptions) (st : StateA)
    (input parsed : WorkInput) (id : String) (st1 : StateA)
    (hwf : WellFormed st)
    (hp : parseWorkInput input = .ok parsed)
    (hr : resolveIdA opts st parsed.id = (id, st1))
    (hdup : mapGet st1.works id = none) :
    (addWorkA opts st input).1 = .ok (st.heap.cells.length + 2) ∧
      (∀ w, ValsEq
        (writeSt (addWorkA opts st input).2 (st.heap.cells.length + 2) w)
        (addWorkA opts st input).2) ∧
      (∀ qid b st2, getWorkA (addWorkA opts st input).2 qid = (some b, st2) →
        st2.works = (addWorkA opts st input).2.works ∧
          st2.changeLog = (addWorkA opts st input).2.changeLog ∧
          ∀ w, ValsEq (writeSt st2 b w) st2) := by
  have hspec := addWorkA_ok_spec opts st input parsed id st1 hp hr hdup
  rw [hspec]
  refine ⟨rfl, ?_, ?_⟩
  · intro w
    apply valsEq_writeSt_of_fresh
    · intro p hp'
      rcases List.mem_append.mp hp' with h | h
      · have := hwf.1 p h
        omega
      · rcases List.mem_singleton.mp h with rfl
        simp only []
        omega
    · intro e he
      rcases List.mem_append.mp he with h | h
      · have := hwf.2 e h
        omega
      · rcases List.mem_singleton.mp h with rfl
        simp only [refAddr]
        omega
  · intro qid b st2 hget
    apply getWorkA_isolated _ ?_ qid b st2 hget
    constructor
    · intro p hp'
      simp only [List.length_append, List.length_cons, List.length_nil]
      rcases List.mem_append.mp hp' with h | h
      · have := hwf.1 p h
        omega
      · rcases List.mem_singleton.mp h with rfl
        simp only []
        omega
    · intro e he
      simp only [List.length_append, List.length_cons, List.length_nil]
      rcases List.mem_append.mp he with h | h
      · have := hwf.2 e h
        omega
      · rcases List.mem_singleton.mp h with rfl
        simp only [refAddr]
        omega

/-- C4 witness: the first `addWork` on a fresh collection; the returned
clone lives at address `2`, the stored object at `0`, the changelog
snapshot at `1`. -/
theorem isolation_C4_witness :
    (WellFormed initialStateA) ∧
    (parseWorkInput { displayTitle := "A", mediaTypeKey := "m" } =
      .ok { id := none, displayTitle := "A", mediaTypeKey := "m"
            createdAt := none, updatedAt := none }) ∧
    (resolveIdA (fixedOpts 100) initialStateA
        (WorkInput.id { id := none, displayTitle := "A", mediaTypeKey := "m"
                        createdAt := none, updatedAt := none }) =
      ("gid0", { heap := ⟨[]⟩, works := [], changeLog := []
                 nowCalls := 0, idCalls := 1 })) ∧
    ((addWorkA (fixedOpts 100) initialStateA
        { displayTitle := "A", mediaTypeKey := "m" }).1 = .ok 2 ∧
      (∀ w, ValsEq
        (writeSt (addWorkA (fixedOpts 100) initialStateA
          { displayTitle := "A", mediaTypeKey := "m" }).2 2 w)
        (addWorkA (fixedOpts 100) initialStateA
          { displayTitle := "A", mediaTypeKey := "m" }).2)) :=
  ⟨⟨by decide, by decide⟩, rfl, rfl,
    ((isolation_C4 (fixedOpts 100) initialStateA
        { displayTitle := "A", mediaTypeKey := "m" }
        { id := none, displayTitle := "A", mediaTypeKey := "m"
          createdAt := none, updatedAt := none }
        "gid0"
        { heap := ⟨[]⟩, works := [], changeLog := []
          nowCalls := 0, idCalls := 1 }
        ⟨by decide, by decide⟩ rfl rfl rfl).1),
    ((isolation_C4 (fixedOpts 100) initialStateA
        { displayTitle := "A", mediaTypeKey := "m" }
        { id := none, displayTitle := "A", mediaTypeKey := "m"
          createdAt := none, updatedAt := none }
        "gid0"
        { heap := ⟨[]⟩, works := [], changeLog := []
          nowCalls := 0, idCalls := 1 }
        ⟨by decide, by decide⟩ rfl rfl rfl).2.1)⟩

end Alias